import Mathlib

/-!
# Live Conversation Gateway — verification of the spec's claims

A shallow embedding of `src/live_gateway/app.py` (and the thin pieces of
`src/live_gateway/live_api.py` it uses).  Python strings are modelled as
`List Char`, byte strings as `List Nat` (each element `< 256`), JSON values
as the inductive `JVal`, and Python dicts as insertion-ordered association
lists.  External library primitives that the gateway only uses as opaque
deterministic functions (HMAC-SHA256, `json.dumps`/`json.loads`, the OIDC
network calls) are taken as parameters of the embedded functions; everything
the gateway itself computes is translated directly from the source.
-/

namespace LiveGateway

/-- JSON values, as produced by `json.loads` / consumed by `json.dumps`.
Floating point numbers do not occur in any payload the gateway builds and
are not modelled. Objects keep insertion order, like Python dicts. -/
inductive JVal where
  | jnull
  | jbool (b : Bool)
  | jint (n : Int)
  | jstr (s : List Char)
  | jarr (elems : List JVal)
  | jobj (fields : List (List Char × JVal))

/-- A Python dict with string keys, e.g. a token payload. -/
abbrev Payload := List (List Char × JVal)

/-- Python `x == t` for a JSON value `x` and a string `t` (equality holds only
when `x` is a string with the same characters). -/
def jvalIsStr (v : JVal) (t : List Char) : Bool :=
  match v with
  | .jstr s => s = t
  | _ => false

/-- `d.get(k)` on a dict: first binding of the key (keys are unique in real
Python dicts, so first-match lookup agrees with dict lookup). -/
def jlookup (fields : Payload) (k : List Char) : Option JVal :=
  match fields with
  | [] => none
  | (k', v) :: rest => if k' = k then some v else jlookup rest k

/-- `d[k] = v` on a dict: replace the existing binding in place, else append. -/
def dictSet (fields : Payload) (k : List Char) (v : JVal) : Payload :=
  match fields with
  | [] => [(k, v)]
  | (k', v') :: rest => if k' = k then (k, v) :: rest else (k', v') :: dictSet rest k v

/-- Characters removed by Python's `str.strip()` (the Unicode whitespace set). -/
def pyWhitespaceChars : List Char :=
  [' ', '\t', '\n', '\r', '\x0b', '\x0c',
   '\x1c', '\x1d', '\x1e', '\x1f', '\x85', '\xa0',
   '\u1680', '\u2000', '\u2001', '\u2002', '\u2003', '\u2004', '\u2005',
   '\u2006', '\u2007', '\u2008', '\u2009', '\u200a',
   '\u2028', '\u2029', '\u202f', '\u205f', '\u3000']

def isPyWhitespace (c : Char) : Bool := c ∈ pyWhitespaceChars

/-- Python `str.strip()`. -/
def pyStrip (s : List Char) : List Char :=
  ((s.dropWhile isPyWhitespace).reverse.dropWhile isPyWhitespace).reverse

/-- Digit run parser used by `pyStrToInt`. -/
def parseDigits : List Char → Option Nat
  | [] => none
  | [c] => if c.isDigit then some (c.toNat - 48) else none
  | c :: rest =>
    if c.isDigit then
      match parseDigits rest with
      | some n => some ((c.toNat - 48) * 10 ^ rest.length + n)
      | none => none
    else none

/-- Python `int(s)` on a string: strip, optional sign, decimal digits.
(Underscore digit grouping and non-ASCII digits are not modelled; on those
this returns `none`, i.e. treats them as a `ValueError`.) -/
def pyStrToInt (s : List Char) : Option Int :=
  let t := pyStrip s
  match t with
  | [] => none
  | c :: rest =>
    if c = '-' then (parseDigits rest).map (fun n => -(n : Int))
    else if c = '+' then (parseDigits rest).map (fun n => (n : Int))
    else (parseDigits t).map (fun n => (n : Int))

/-- Python `int(x)` on a JSON value; `none` models the `TypeError`/`ValueError`
raised on `None`, lists, dicts and unparsable strings. -/
def pyInt : JVal → Option Int
  | .jint n => some n
  | .jbool b => some (if b then 1 else 0)
  | .jstr s => pyStrToInt s
  | _ => none

/-! ## Base64 (`_base64url_encode` / `_base64url_decode`, `decode_audio_base64`) -/

/-- Pack bytes into base64 sextets, final partial group unpadded (the gateway
strips the `=` padding from `base64.urlsafe_b64encode`'s output). -/
def bytesToSextets : List Nat → List Nat
  | a :: b :: c :: rest =>
    a / 4 :: ((a % 4) * 16 + b / 16) :: ((b % 16) * 4 + c / 64) :: c % 64 ::
      bytesToSextets rest
  | [a, b] => [a / 4, (a % 4) * 16 + b / 16, (b % 16) * 4]
  | [a] => [a / 4, (a % 4) * 16]
  | [] => []

/-- Unpack sextets back into bytes; `none` on a length that no encoding
produces (1 mod 4, Python's `binascii.Error: Invalid padding`). -/
def sextetsToBytes : List Nat → Option (List Nat)
  | s1 :: s2 :: s3 :: s4 :: rest =>
    (sextetsToBytes rest).map fun bs =>
      (s1 * 4 + s2 / 16) :: ((s2 % 16) * 16 + s3 / 4) :: ((s3 % 4) * 64 + s4) :: bs
  | [s1, s2, s3] => some [s1 * 4 + s2 / 16, (s2 % 16) * 16 + s3 / 4]
  | [s1, s2] => some [s1 * 4 + s2 / 16]
  | [_] => none
  | [] => some []

/-- The URL-safe base64 alphabet used by `base64.urlsafe_b64encode`. -/
def b64UrlAlphabet : List Char :=
  "ABCDEFGHIJKLMNOPQRSTUVWXYZabcdefghijklmnopqrstuvwxyz0123456789-_".toList

def sextetToUrlChar (n : Nat) : Char := b64UrlAlphabet.getD n 'A'

def urlCharToSextet (c : Char) : Option Nat := b64UrlAlphabet.indexOf? c

/-- `_base64url_encode`: url-safe base64 with the `=` padding stripped. -/
def base64urlEncode (bytes : List Nat) : List Char :=
  (bytesToSextets bytes).map sextetToUrlChar

def mapUrlCharVals : List Char → Option (List Nat)
  | [] => some []
  | c :: cs =>
    match urlCharToSextet c with
    | none => none
    | some v => (mapUrlCharVals cs).map (v :: ·)

/-- `_base64url_decode`: re-pad and `base64.urlsafe_b64decode`.  `none` models
the exception on invalid input (callers catch it and treat the token as
invalid).  Characters outside the url-safe alphabet are rejected rather than
discarded, which agrees with Python on every well-formed token. -/
def base64urlDecode (s : List Char) : Option (List Nat) :=
  if s.length % 4 = 1 then none
  else
    match mapUrlCharVals s with
    | none => none
    | some sextets => sextetsToBytes sextets


/-! ## Signed Token Codec (`_sign_value` / `_verify_signed_value`)

`hmac.new(...).digest()` and `json.dumps`/`json.loads` are external library
primitives the codec uses as opaque deterministic functions; they are
parameters of the embedded functions, bundled in `TokenCodec`.  Everything
else — expiry handling, serialisation pipeline, signature comparison — is
translated from the source. -/

/-- The external serialisation and MAC primitives used by the codec:
`dumps body` is `json.dumps(body, ...).encode("utf-8")`, `loads bs` is
`json.loads(bs.decode("utf-8"))` (with `none` for any exception, or for a
document that is not an object), and `mac secret msg` is
`hmac.new(secret.encode(), msg.encode(), hashlib.sha256).digest()`. -/
structure TokenCodec where
  dumps : Payload → List Nat
  loads : List Nat → Option Payload
  mac : List Char → List Char → List Nat

def expKey : List Char := "exp".toList

def secretRequiredMsg : List Char :=
  "OIDC_SESSION_SECRET is required when OIDC is enabled.".toList

/-- `value.split(".", 1)`: split at the first dot (the caller has checked a
dot is present, so the two-element unpacking always succeeds). -/
def splitOnceDot : List Char → List Char × List Char
  | [] => ([], [])
  | c :: cs =>
    if c = '.' then ([], cs)
    else
      let p := splitOnceDot cs
      (c :: p.1, p.2)

/-- `_sign_value(payload, ttl_sec)` at clock value `now` (`int(time.time())`).
Copies the payload, overwrites its `exp` with `now + ttl`, serialises,
base64url-encodes, and appends the base64url-encoded MAC after a dot.
`.error` models the `RuntimeError` raised when the secret is unset. -/
def sign_value (C : TokenCodec) (secret : List Char) (now : Int)
    (payload : Payload) (ttl : Int) : Except (List Char) (List Char) :=
  if secret = [] then .error secretRequiredMsg
  else
    let body := dictSet payload expKey (.jint (now + ttl))
    let bodyB64 := base64urlEncode (C.dumps body)
    let sig := C.mac secret bodyB64
    .ok (bodyB64 ++ '.' :: base64urlEncode sig)

/-- `_verify_signed_value(value)` at clock value `now`.  Returns `none` for a
missing/dotless value or unset secret, a MAC mismatch, any decoding
exception, or an expired payload; `int(payload.get("exp", 0)) < int(time.time())`
is the expiry test, with the exceptions of `int(...)` caught as `none`. -/
def verify_signed_value (C : TokenCodec) (secret : List Char) (now : Int)
    (value : Option (List Char)) : Option Payload :=
  match value with
  | none => none
  | some v =>
    if v = [] ∨ '.' ∉ v ∨ secret = [] then none
    else
      match base64urlDecode (splitOnceDot v).2 with
      | none => none
      | some providedSig =>
        if C.mac secret (splitOnceDot v).1 ≠ providedSig then none
        else
          match base64urlDecode (splitOnceDot v).1 with
          | none => none
          | some bodyBytes =>
            match C.loads bodyBytes with
            | none => none
            | some payload =>
              match pyInt ((jlookup payload expKey).getD (.jint 0)) with
              | none => none
              | some e => if e < now then none else some payload

/-- A degenerate but legitimate instantiation of the external primitives,
used to evaluate the codec theorems on concrete inputs: every payload
serialises to the empty byte string, deserialisation returns the fixed
payload `p`, and the MAC is empty. -/
def constCodec (p : Payload) : TokenCodec :=
  { dumps := fun _ => [], loads := fun _ => some p, mac := fun _ _ => [] }

/-! ## `_build_post_login_redirect` and the `urllib.parse.urlsplit` model -/

def urlUnsafeChars : List Char := ['\t', '\r', '\n']

/-- `urlsplit` first removes tab/CR/LF (`_UNSAFE_URL_BYTES_TO_REMOVE`). -/
def removeUnsafeBytes (s : List Char) : List Char :=
  s.filter fun c => ¬ c ∈ urlUnsafeChars

def schemeChars : List Char :=
  "abcdefghijklmnopqrstuvwxyzABCDEFGHIJKLMNOPQRSTUVWXYZ0123456789+-.".toList

/-- `url.find(":")` plus the split: the prefix before the first colon and
the suffix after it, or `none` when there is no colon. -/
def splitFirstColon : List Char → Option (List Char × List Char)
  | [] => none
  | c :: cs =>
    if c = ':' then some ([], cs)
    else (splitFirstColon cs).map fun p => (c :: p.1, p.2)

/-- The scheme-extraction step of `urlsplit` (CPython 3.11+): a scheme is
recognised when a colon occurs at position `> 0`, the first character is an
ASCII letter and the rest of the prefix consists of scheme characters; the
scheme is lower-cased and removed from the url. -/
def urlsplitScheme (url : List Char) : List Char × List Char :=
  match splitFirstColon url with
  | none => ([], url)
  | some (pre, rest) =>
    match pre with
    | [] => ([], url)
    | c0 :: pre0 =>
      if c0.isAlpha ∧ pre0.all (fun c => c ∈ schemeChars) then
        ((c0 :: pre0).map Char.toLower, rest)
      else ([], url)

/-- `_splitnetloc`: everything after `//` up to the next `/`, `?` or `#`. -/
def netlocOf (rest : List Char) : List Char :=
  (rest.drop 2).takeWhile fun c => ¬(c = '/' ∨ c = '?' ∨ c = '#')

def isAsciiChar (c : Char) : Bool := c.toNat < 128

/-- `netloc.partition("[")[2].partition("]")[0]`. -/
def bracketedHost (netloc : List Char) : List Char :=
  ((netloc.dropWhile fun c => ¬ c = '[').drop 1).takeWhile fun c => ¬ c = ']'

/-- The scheme and netloc computed by `urllib.parse.urlsplit` (hence by
`urlparse`), with its exception paths as `none`: unbalanced square brackets
raise "Invalid IPv6 URL"; a bracketed host must pass `_check_bracketed_host`
(parameter `bracketOk`, stdlib `ipaddress` validation); a non-ASCII netloc
must pass `_checknetloc` (parameter `netlocOk`, NFKC-based — ASCII netlocs
always pass).  The fragment/query splitting that follows in `urlsplit`
touches neither component. -/
def urlSchemeNetloc (bracketOk netlocOk : List Char → Bool) (url0 : List Char) :
    Option (List Char × List Char) :=
  let url := removeUnsafeBytes url0
  let sr := urlsplitScheme url
  if sr.2.take 2 = ['/', '/'] then
    let netloc := netlocOf sr.2
    if ('[' ∈ netloc ∧ ']' ∉ netloc) ∨ (']' ∈ netloc ∧ '[' ∉ netloc) then none
    else if '[' ∈ netloc ∧ ']' ∈ netloc ∧ ¬ bracketOk (bracketedHost netloc) then none
    else if ¬ netloc.all isAsciiChar ∧ ¬ netlocOk netloc then none
    else some (sr.1, netloc)
  else some (sr.1, [])

def rootPath : List Char := "/".toList

/-- `_build_post_login_redirect(next_url)`.  `none` models the `ValueError`
that `urlparse` raises on certain malformed authorities (it propagates to
the caller); every other branch mirrors the source. -/
def build_post_login_redirect (bracketOk netlocOk : List Char → Bool)
    (next_url : List Char) : Option (List Char) :=
  if pyStrip next_url = [] then some rootPath
  else
    match urlSchemeNetloc bracketOk netlocOk (pyStrip next_url) with
    | none => none
    | some sn =>
      if ¬ sn.1 = [] ∨ ¬ sn.2 = [] then some rootPath
      else if ¬ (pyStrip next_url).take 1 = ['/'] then some rootPath
      else some (pyStrip next_url)

/-! ## `_is_error_response` / `_extract_error_detail` and the tool_result event -/

def statusKey : List Char := "status".toList
def errorKey : List Char := "error".toList
def messageKey : List Char := "message".toList
def detailKey : List Char := "detail".toList
def reasonKey : List Char := "reason".toList
def resultKey : List Char := "result".toList
def responseKey : List Char := "response".toList
def nameKey : List Char := "name".toList
def successKeyword : List Char := "success".toList
def unknownName : List Char := "unknown".toList

/-- `_is_error_response(response_data)`: a dict whose top-level `status`
equals `"error"` or that has a top-level `error` key. -/
def _is_error_response (response_data : JVal) : Bool :=
  match response_data with
  | .jobj fields =>
    jvalIsStr ((jlookup fields statusKey).getD .jnull) errorKey ||
      (jlookup fields errorKey).isSome
  | _ => false

def directFields : List (List Char) := [messageKey, errorKey, detailKey, reasonKey]

/-- `value = d.get(field)`, then `isinstance(value, str) and value.strip()`:
the stripped string when it is a non-blank string. -/
def stripStrField (v : Option JVal) : Option (List Char) :=
  match v with
  | some (.jstr s) => if pyStrip s = [] then none else some (pyStrip s)
  | _ => none

def findDirect (fields : Payload) : List (List Char) → Option (List Char)
  | [] => none
  | k :: ks =>
    match stripStrField (jlookup fields k) with
    | some t => some t
    | none => findDirect fields ks

def containerKeys : List (List Char) := [errorKey, resultKey, responseKey]

def findInContainers (fields : Payload) : List (List Char) → Option (List Char)
  | [] => none
  | ck :: cks =>
    match jlookup fields ck with
    | some (.jobj inner) =>
      match findDirect inner directFields with
      | some t => some t
      | none => findInContainers fields cks
    | _ => findInContainers fields cks

/-- `_extract_error_detail(response_data)`. -/
def _extract_error_detail (response_data : JVal) : Option (List Char) :=
  match response_data with
  | .jobj fields =>
    match findDirect fields directFields with
    | some t => some t
    | none => findInContainers fields containerKeys
  | _ => none

/-- The fields of the `tool_result` activity event that C4 is about (the
display label, icon and progress counters are rendering concerns). -/
structure ToolResultEvent where
  tool : JVal
  status : List Char
  detail : Option (List Char)

/-- The `function_response` branch of `_query_agent`: the event's status is
`"error"` iff `_is_error_response` holds of `fr.get("response", {})`, and
the error detail is extracted only in that case. -/
def process_function_response (fr : Payload) : ToolResultEvent :=
  { tool := (jlookup fr nameKey).getD (.jstr unknownName),
    status :=
      if _is_error_response ((jlookup fr responseKey).getD (.jobj [])) then errorKey
      else successKeyword,
    detail :=
      if _is_error_response ((jlookup fr responseKey).getD (.jobj [])) then
        _extract_error_detail ((jlookup fr responseKey).getD (.jobj []))
      else none }

/-- Modelled from the spec (claim C4's wording): an error marker under one
of the fixed field names — `status == "error"`, an `error` key, or a
non-blank string under `message`/`error`/`detail`/`reason` — searched both
at the top level of the result payload and inside the nested
`error`/`result`/`response` containers. -/
def hasMarkerTop (fields : Payload) : Bool :=
  jvalIsStr ((jlookup fields statusKey).getD .jnull) errorKey ||
    (jlookup fields errorKey).isSome ||
    directFields.any fun k => (stripStrField (jlookup fields k)).isSome

/-- Modelled from the spec: see `hasMarkerTop`. -/
def hasErrorMarkerSpec (rd : JVal) : Bool :=
  match rd with
  | .jobj fields =>
    hasMarkerTop fields ||
      containerKeys.any fun ck =>
        match jlookup fields ck with
        | some (.jobj inner) => hasMarkerTop inner
        | _ => false
  | _ => false

/-- The concrete `function_response` payload refuting C4: the error marker
sits inside the nested `result` container only. -/
def c4CounterPart : Payload :=
  [(responseKey, JVal.jobj [(resultKey, JVal.jobj [(statusKey, JVal.jstr errorKey)])])]

/-! ## `auth_callback` (Session Authentication) -/

structure OidcConfig where
  enabled : Bool
  issuer : List Char
  clientId : List Char
  clientSecret : List Char
  sessionSecret : List Char

/-- `_is_oidc_ready()`. -/
def _is_oidc_ready (cfg : OidcConfig) : Bool :=
  cfg.enabled && !cfg.issuer.isEmpty && !cfg.clientId.isEmpty &&
    !cfg.clientSecret.isEmpty && !cfg.sessionSecret.isEmpty

def OIDC_SESSION_TTL_SEC : Int := 8 * 60 * 60
def OIDC_STATE_TTL_SEC : Int := 10 * 60

def notConfiguredMsg : List Char := "OIDC is not fully configured.".toList
def missingParamsMsg : List Char := "Missing OIDC callback parameters.".toList
def stateMismatchMsg : List Char := "OIDC state mismatch.".toList
def noIdTokenMsg : List Char := "id_token was not returned.".toList

def stateKey : List Char := "state".toList
def nonceKey : List Char := "nonce".toList
def nextKey : List Char := "next".toList
def subKey : List Char := "sub".toList
def emailKey : List Char := "email".toList
def preferredUsernameKey : List Char := "preferred_username".toList
def idTokenKey : List Char := "id_token".toList

/-- Python `str(x)` on the JSON values that occur in cookie payloads.  Only
the string case feeds the theorems (the result is passed to the parametric
id-token validator and to the redirect builder). -/
def pyStrJ : JVal → List Char
  | .jstr s => s
  | .jnull => "None".toList
  | .jbool b => if b then "True".toList else "False".toList
  | .jint n => (toString n).toList
  | .jarr _ => []
  | .jobj _ => []

/-- `(token_payload.get("id_token") or "").strip()`; `none` models the
`AttributeError` raised when the value is truthy but not a string. -/
def idTokenOf (tp : Payload) : Option (List Char) :=
  match jlookup tp idTokenKey with
  | none => some []
  | some .jnull => some []
  | some (.jstr s) => some (pyStrip s)
  | some (.jbool b) => if b then none else some []
  | some (.jint n) => if n = 0 then some [] else none
  | some (.jarr l) => if l.isEmpty then some [] else none
  | some (.jobj f) => if f.isEmpty then some [] else none

/-- The session payload minted on a successful callback. -/
def sessionPayloadOf (claims : Payload) : Payload :=
  [(subKey, (jlookup claims subKey).getD (.jstr [])),
   (nameKey, (jlookup claims nameKey).getD
      ((jlookup claims preferredUsernameKey).getD (.jstr []))),
   (emailKey, (jlookup claims preferredUsernameKey).getD
      ((jlookup claims emailKey).getD (.jstr [])))]

/-- The observable outcome of one `auth_callback` request: a JSON error body
(no cookie mutation), a redirect that deletes the state cookie and sets the
session cookie, or a propagated exception (HTTP 500, no cookie mutation). -/
inductive CallbackResult where
  | errorBody (message : List Char)
  | redirect (url : List Char) (sessionCookie : List Char)
  | raised

/-- Whether the response mints (sets) the session cookie. -/
def setsSessionCookie : CallbackResult → Bool
  | .redirect _ _ => true
  | _ => false

/-- `auth_callback(request, code, state)`.  The two network calls are
parameters — `exchangeF code` models `_exchange_code_for_token` and
`validateF id_token nonce` models `_validate_id_token` — each returning
`none` where the Python call would raise; cookie verification and signing
use the token codec at clock `now`.  The source folds the three emptiness
checks into a single condition; the order here is behaviourally identical
because all three produce the same error body. -/
def auth_callback (Cd : TokenCodec) (cfg : OidcConfig) (now : Int)
    (bracketOk netlocOk : List Char → Bool)
    (exchangeF : List Char → Option Payload)
    (validateF : List Char → List Char → Option Payload)
    (stateCookie : Option (List Char)) (code state : List Char) : CallbackResult :=
  if ¬ _is_oidc_ready cfg then .errorBody notConfiguredMsg
  else
    match verify_signed_value Cd cfg.sessionSecret now stateCookie with
    | none => .errorBody missingParamsMsg
    | some state_cookie =>
      if code = [] ∨ state = [] then .errorBody missingParamsMsg
      else if ¬ jvalIsStr ((jlookup state_cookie stateKey).getD .jnull) state then
        .errorBody stateMismatchMsg
      else
        match exchangeF code with
        | none => .raised
        | some token_payload =>
          match idTokenOf token_payload with
          | none => .raised
          | some id_token =>
            if id_token = [] then .errorBody noIdTokenMsg
            else
              match validateF id_token
                  (pyStrJ ((jlookup state_cookie nonceKey).getD (.jstr []))) with
              | none => .raised
              | some claims =>
                match build_post_login_redirect bracketOk netlocOk
                    (pyStrJ ((jlookup state_cookie nextKey).getD (.jstr rootPath))) with
                | none => .raised
                | some next_url =>
                  match sign_value Cd cfg.sessionSecret now (sessionPayloadOf claims)
                      OIDC_SESSION_TTL_SEC with
                  | .error _ => .raised
                  | .ok tok => .redirect next_url tok

/-! ## `websocket_endpoint` connection establishment (C5) -/

structure GatewayConfig where
  gcpProjectId : List Char
  agentResourceName : List Char

/-- How one `/ws` upgrade begins. -/
inductive WsStart where
  | rejectedUnauthorized
  | acceptedConfigError
  | acceptedReady
  deriving DecidableEq

/-- Python truthiness of the session-user value (`not ws_user`). -/
def isFalsyUser : Option Payload → Bool
  | none => true
  | some u => u.isEmpty

/-- The connection-establishment prefix of `websocket_endpoint`: the auth
check runs first (close 4401 before accepting), then `websocket.accept()`,
and only then `_init_vertex()`, which raises when `GCP_PROJECT_ID` or
`AGENT_RESOURCE_NAME` is unset — there is no startup-time validation of
either variable anywhere in the module. -/
def websocket_start (cfg : GatewayConfig) (oidcEnabled : Bool)
    (sessionUser : Option Payload) : WsStart :=
  if oidcEnabled && isFalsyUser sessionUser then .rejectedUnauthorized
  else if cfg.gcpProjectId = [] ∨ cfg.agentResourceName = [] then .acceptedConfigError
  else .acceptedReady

/-- Whether `websocket.accept()` ran for this connection. -/
def wsAccepted : WsStart → Bool
  | .rejectedUnauthorized => false
  | _ => true

/-! ## The `audio_chunk` branch (C10) -/

def b64StdAlphabet : List Char :=
  "ABCDEFGHIJKLMNOPQRSTUVWXYZabcdefghijklmnopqrstuvwxyz0123456789+/".toList

def stdCharToSextet (c : Char) : Option Nat := b64StdAlphabet.indexOf? c

/-- `base64.b64decode(payload, validate=True)`: standard alphabet, full
padding required, strict about stray characters; `none` models
`binascii.Error`. -/
def decodeStdBase64 : List Char → Option (List Nat)
  | c1 :: c2 :: c3 :: c4 :: rest =>
    match stdCharToSextet c1, stdCharToSextet c2 with
    | some v1, some v2 =>
      if c3 = '=' then
        if c4 = '=' ∧ rest = [] then some [v1 * 4 + v2 / 16] else none
      else
        match stdCharToSextet c3 with
        | some v3 =>
          if c4 = '=' then
            if rest = [] then some [v1 * 4 + v2 / 16, (v2 % 16) * 16 + v3 / 4]
            else none
          else
            match stdCharToSextet c4 with
            | some v4 =>
              match decodeStdBase64 rest with
              | some tail =>
                some ((v1 * 4 + v2 / 16) :: ((v2 % 16) * 16 + v3 / 4) ::
                  ((v3 % 4) * 64 + v4) :: tail)
              | none => none
            | none => none
        | none => none
    | _, _ => none
  | [] => some []
  | _ => none

/-- `GeminiLiveClient.decode_audio_base64`. -/
def decode_audio_base64 (payload : List Char) : Option (List Nat) :=
  decodeStdBase64 payload

def liveNotStartedMsg : List Char := "Live session not started".toList
def invalidAudioMsg : List Char := "Invalid audio payload".toList
def invalidSampleRateMsg : List Char := "Invalid sample_rate".toList
def missingAudioMsg : List Char := "Missing audio payload".toList
def audioKey : List Char := "audio".toList
def sampleRateKey : List Char := "sample_rate".toList

/-- Outcome of one `audio_chunk` message: an `error` frame, or the decoded
chunk enqueued on the audio channel with its sample rate. -/
inductive ChunkOutcome where
  | errorFrame (message : List Char)
  | enqueued (audioBytes : List Nat) (sampleRate : Int)

/-- The `audio_chunk` branch of the websocket receive loop: requires the
live client to be set, a string `audio` field,
`int(payload.get("sample_rate", 16000))` positive, a non-empty audio string
and strictly valid base64; on success the chunk is enqueued. -/
def handle_audio_chunk (liveClientSet : Bool) (payload : Payload) : ChunkOutcome :=
  if ¬ liveClientSet then .errorFrame liveNotStartedMsg
  else
    match jlookup payload audioKey with
    | some (.jstr audio_b64) =>
      match pyInt ((jlookup payload sampleRateKey).getD (.jint 16000)) with
      | none => .errorFrame invalidSampleRateMsg
      | some sample_rate =>
        if sample_rate ≤ 0 then .errorFrame invalidSampleRateMsg
        else if audio_b64 = [] then .errorFrame missingAudioMsg
        else
          match decode_audio_base64 audio_b64 with
          | none => .errorFrame invalidAudioMsg
          | some audio_bytes => .enqueued audio_bytes sample_rate
    | _ => .errorFrame invalidAudioMsg

/-! ## The inbound audio channel (C8) -/

/-- One queued element: the decoded chunk, or the `None` end-of-stream
sentinel, with its sample rate. -/
abbrev AudioItem := Option (List Nat) × Int

/-- `asyncio.Queue` state.  The gateway creates it as `asyncio.Queue()`,
i.e. with `maxsize = 0`, which asyncio treats as infinite. -/
structure AudioQueue where
  maxsize : Nat
  items : List AudioItem

/-- `not q.full()`: a `put` completes immediately exactly when this holds
(`full()` is false whenever `maxsize <= 0`). -/
def queuePutReady (q : AudioQueue) : Bool :=
  q.maxsize = 0 ∨ q.items.length < q.maxsize

/-- The queue as allocated in `websocket_endpoint` / `_start_live_session`:
`asyncio.Queue()`. -/
def gatewayAudioQueue : AudioQueue := { maxsize := 0, items := [] }

/-- Steps of the audio channel: the receive loop enqueues (a `put`
completes only when the queue is not full) and the transcription sender
dequeues in FIFO order. -/
inductive AudioQueueStep : AudioQueue → AudioQueue → Prop where
  | put (q : AudioQueue) (item : AudioItem) (h : queuePutReady q = true) :
      AudioQueueStep q { q with items := q.items ++ [item] }
  | get (q : AudioQueue) (item : AudioItem) (rest : List AudioItem)
      (h : q.items = item :: rest) :
      AudioQueueStep q { q with items := rest }

def AudioQueueReachable (q : AudioQueue) : Prop :=
  Relation.ReflTransGen AudioQueueStep gatewayAudioQueue q

/-! ## The live voice session's response-trigger tasks (C3) -/

/-- The task-handle state of one connection's live voice session.
`responseTask` is the `response_task` handle; `activeTriggers` collects the
ids of `_trigger_agent_response` tasks that have been created and whose
`finally` block has not yet run; `streamRunning` tracks the transcription
task (`live_task`) and `liveClientSet` the `live_client` reference. -/
structure LiveSessionState where
  responseTask : Option Nat
  activeTriggers : List Nat
  nextTaskId : Nat
  liveClientSet : Bool
  streamRunning : Bool
  lastResponseAt : Int
  transcriptLen : Nat
  lastResponseIndex : Nat
  now : Int

def initialLiveState : LiveSessionState :=
  { responseTask := none, activeTriggers := [], nextTaskId := 0,
    liveClientSet := false, streamRunning := false, lastResponseAt := 0,
    transcriptLen := 0, lastResponseIndex := 0, now := 0 }

/-- The events that mutate the live session's task state, translated from
`_start_live_session`, `_stop_live_session`, `_stream`,
`_trigger_agent_response` and the `speech_pause`/`barge_in` branches of the
receive loop.  asyncio runs one connection's coroutines cooperatively, so
each constructor is one atomic, non-suspending section of code:
`asyncio.create_task` returns synchronously, hence checking the handle and
assigning it happen with no interleaving.  `barge_in` only cancels tasks —
the handle stays set until the cancelled task's `finally` runs
(`triggerExit` with `completed = false`), so it changes no modelled state. -/
inductive LiveStep : LiveSessionState → LiveSessionState → Prop where
  /-- `time.monotonic()` advances. -/
  | tick (s : LiveSessionState) (d : Int) (hd : 0 ≤ d) :
      LiveStep s { s with now := s.now + d }
  /-- `live_start` with no running transcription task: fresh queue, client
  and counters, transcript cleared; the response-task handle is not
  touched. -/
  | liveStart (s : LiveSessionState) (h : s.streamRunning = false) :
      LiveStep s { s with
        liveClientSet := true,
        streamRunning := true,
        lastResponseAt := 0,
        lastResponseIndex := 0,
        transcriptLen := 0 }
  /-- `live_start` while the transcription task runs: early return. -/
  | liveStartNoop (s : LiveSessionState) (h : s.streamRunning = true) :
      LiveStep s s
  /-- The transcription stream ends on its own. -/
  | streamEnd (s : LiveSessionState) :
      LiveStep s { s with streamRunning := false }
  /-- A transcribed fragment arrives and the debounce guard passes
  (`response_task is None and now - last_response_at > 2.0`): a trigger
  task is created and the handle set to it in the same step. -/
  | fragmentSpawn (s : LiveSessionState) (hrun : s.streamRunning = true)
      (hnone : s.responseTask = none) (hquiet : 2 < s.now - s.lastResponseAt) :
      LiveStep s { s with
        transcriptLen := s.transcriptLen + 1,
        responseTask := some s.nextTaskId,
        activeTriggers := s.nextTaskId :: s.activeTriggers,
        nextTaskId := s.nextTaskId + 1 }
  /-- A transcribed fragment arrives but the debounce guard fails. -/
  | fragmentNoSpawn (s : LiveSessionState) (hrun : s.streamRunning = true)
      (hguard : ¬(s.responseTask = none ∧ 2 < s.now - s.lastResponseAt)) :
      LiveStep s { s with transcriptLen := s.transcriptLen + 1 }
  /-- `speech_pause` with its guard passing
  (`response_task is None and live_client is not None`). -/
  | speechPauseSpawn (s : LiveSessionState) (hnone : s.responseTask = none)
      (hlive : s.liveClientSet = true) :
      LiveStep s { s with
        responseTask := some s.nextTaskId,
        activeTriggers := s.nextTaskId :: s.activeTriggers,
        nextTaskId := s.nextTaskId + 1 }
  /-- `speech_pause` with its guard failing: only a status reply. -/
  | speechPauseNoop (s : LiveSessionState)
      (hguard : ¬(s.responseTask = none ∧ s.liveClientSet = true)) :
      LiveStep s s
  /-- A running trigger task consumes its transcript slice
  (`last_response_index = len(transcript_parts)`). -/
  | triggerAdvance (s : LiveSessionState) (tid : Nat) (h : tid ∈ s.activeTriggers) :
      LiveStep s { s with lastResponseIndex := s.transcriptLen }
  /-- A trigger task exits (normally or after cancellation): its `finally`
  clears the handle; a fully completed turn has also just updated
  `last_response_at`. -/
  | triggerExit (s : LiveSessionState) (tid : Nat) (completed : Bool)
      (h : tid ∈ s.activeTriggers) :
      LiveStep s { s with
        activeTriggers := s.activeTriggers.erase tid,
        responseTask := none,
        lastResponseAt := if completed then s.now else s.lastResponseAt }
  /-- `live_stop` / disconnect teardown: push the sentinel, cancel every
  task and await them (`asyncio.gather`; each trigger task runs its
  `finally`), then clear every handle and the client. -/
  | stop (s : LiveSessionState) :
      LiveStep s { s with
        responseTask := none,
        activeTriggers := [],
        streamRunning := false,
        liveClientSet := false }

def LiveReachable (s : LiveSessionState) : Prop :=
  Relation.ReflTransGen LiveStep initialLiveState s

/-- The inductive invariant for C3: the `response_task` handle covers every
task that has been created and has not yet run its `finally`. -/
def triggerInv (s : LiveSessionState) : Prop :=
  (s.responseTask = none → s.activeTriggers = []) ∧
  (∀ t, s.responseTask = some t →
    s.activeTriggers = [] ∨ s.activeTriggers = [t])


/-- Concrete state-cookie payload used to evaluate the callback theorems. -/
def c2WitnessCookie : Payload := [(stateKey, JVal.jstr ("aaa".toList))]

/-- Concrete (fully configured) OIDC configuration used to evaluate the
callback theorems. -/
def c2WitnessCfg : OidcConfig :=
  { enabled := true, issuer := "i".toList, clientId := "c".toList,
    clientSecret := "s".toList, sessionSecret := "k".toList }

/-! ## Base64 round-trip lemmas -/

theorem sextets_roundtrip :
    ∀ l : List Nat, (∀ b ∈ l, b < 256) →
      sextetsToBytes (bytesToSextets l) = some l
  | [], _ => by simp [bytesToSextets, sextetsToBytes]
  | [a], h => by
    have ha : a < 256 := h a (by simp)
    simp only [bytesToSextets, sextetsToBytes, Option.some.injEq, List.cons.injEq,
      and_true]
    omega
  | [a, b], h => by
    have ha : a < 256 := h a (by simp)
    have hb : b < 256 := h b (by simp)
    simp only [bytesToSextets, sextetsToBytes, Option.some.injEq, List.cons.injEq,
      and_true]
    omega
  | a :: b :: c :: rest, h => by
    have ha : a < 256 := h a (by simp)
    have hb : b < 256 := h b (by simp)
    have hc : c < 256 := h c (by simp)
    have ih := sextets_roundtrip rest fun x hx => h x (by simp [hx])
    rw [bytesToSextets, sextetsToBytes, ih]
    simp only [Option.map_some', Option.some.injEq, List.cons.injEq, and_true]
    omega

theorem bytesToSextets_lt (l : List Nat) (h : ∀ b ∈ l, b < 256) :
    ∀ s ∈ bytesToSextets l, s < 64 := by
  match l with
  | [] => simp [bytesToSextets]
  | [a] =>
    have ha : a < 256 := h a (by simp)
    simp only [bytesToSextets, List.mem_cons, List.not_mem_nil, or_false]
    rintro s (rfl | rfl) <;> omega
  | [a, b] =>
    have ha : a < 256 := h a (by simp)
    have hb : b < 256 := h b (by simp)
    simp only [bytesToSextets, List.mem_cons, List.not_mem_nil, or_false]
    rintro s (rfl | rfl | rfl) <;> omega
  | a :: b :: c :: rest =>
    have ha : a < 256 := h a (by simp)
    have hb : b < 256 := h b (by simp)
    have hc : c < 256 := h c (by simp)
    have ih := bytesToSextets_lt rest fun x hx => h x (by simp [hx])
    simp only [bytesToSextets, List.mem_cons]
    rintro s (rfl | rfl | rfl | rfl | hs)
    · omega
    · omega
    · omega
    · omega
    · exact ih s hs

theorem bytesToSextets_length_mod (l : List Nat) :
    (bytesToSextets l).length % 4 ≠ 1 := by
  match l with
  | [] => simp [bytesToSextets]
  | [a] => simp [bytesToSextets]
  | [a, b] => simp [bytesToSextets]
  | a :: b :: c :: rest =>
    have ih := bytesToSextets_length_mod rest
    simp only [bytesToSextets, List.length_cons]
    omega

theorem urlChar_roundtrip : ∀ n < 64, urlCharToSextet (sextetToUrlChar n) = some n := by
  decide

theorem sextetToUrlChar_ne_dot (n : Nat) : sextetToUrlChar n ≠ '.' := by
  by_cases h : n < 64
  · exact (by decide : ∀ m < 64, sextetToUrlChar m ≠ '.') n h
  · have hlen : b64UrlAlphabet.length ≤ n := by
      have : b64UrlAlphabet.length = 64 := by decide
      omega
    have hnone : b64UrlAlphabet[n]? = none := List.getElem?_eq_none hlen
    simp [sextetToUrlChar, List.getD_eq_getElem?_getD, hnone]

theorem mapUrlCharVals_encode (sextets : List Nat) (h : ∀ s ∈ sextets, s < 64) :
    mapUrlCharVals (sextets.map sextetToUrlChar) = some sextets := by
  induction sextets with
  | nil => simp [mapUrlCharVals]
  | cons s rest ih =>
    have hs : s < 64 := h s (by simp)
    have := ih fun x hx => h x (by simp [hx])
    simp [mapUrlCharVals, urlChar_roundtrip s hs, this]

/-- Encode/decode round-trip for the gateway's padless url-safe base64. -/
theorem base64url_roundtrip (l : List Nat) (h : ∀ b ∈ l, b < 256) :
    base64urlDecode (base64urlEncode l) = some l := by
  unfold base64urlDecode base64urlEncode
  rw [List.length_map]
  simp only [bytesToSextets_length_mod l, if_false]
  rw [mapUrlCharVals_encode _ (bytesToSextets_lt l h)]
  exact sextets_roundtrip l h

theorem dot_not_mem_base64urlEncode (l : List Nat) : '.' ∉ base64urlEncode l := by
  unfold base64urlEncode
  intro hmem
  obtain ⟨n, _, hn⟩ := List.mem_map.mp hmem
  exact sextetToUrlChar_ne_dot n hn



/-! ## Lemmas about the codec building blocks -/

theorem splitOnceDot_append (a b : List Char) (ha : '.' ∉ a) :
    splitOnceDot (a ++ '.' :: b) = (a, b) := by
  induction a with
  | nil => simp [splitOnceDot]
  | cons c cs ih =>
    have hc : ¬ c = '.' := fun h => ha (by simp [h])
    have hcs : '.' ∉ cs := fun h => ha (List.mem_cons_of_mem _ h)
    simp [splitOnceDot, hc, ih hcs]

theorem jlookup_dictSet_self (p : Payload) (k : List Char) (v : JVal) :
    jlookup (dictSet p k v) k = some v := by
  induction p with
  | nil => simp [dictSet, jlookup]
  | cons kv rest ih =>
    obtain ⟨k', v'⟩ := kv
    by_cases h : k' = k
    · simp [dictSet, h, jlookup]
    · simp [dictSet, h, jlookup, ih]

theorem jlookup_dictSet_ne (p : Payload) (k k' : List Char) (v : JVal) (h : k' ≠ k) :
    jlookup (dictSet p k v) k' = jlookup p k' := by
  induction p with
  | nil => simp [dictSet, jlookup, Ne.symm h]
  | cons kv rest ih =>
    obtain ⟨k'', v''⟩ := kv
    by_cases hk : k'' = k
    · subst hk
      simp [dictSet, jlookup, Ne.symm h]
    · simp [dictSet, hk, jlookup, ih]

/-- C1 (amended): for every payload and positive ttl, with the signing secret
configured, verifying the signed token strictly before `ttl` seconds have
elapsed returns exactly the signed body — the input payload with its `exp`
key overwritten by the absolute expiry `signTime + ttl`, hence agreeing with
the input on every key other than `exp` — and verifying strictly after `ttl`
seconds have elapsed returns invalid (`none`).  The hypotheses state the
contracts of the external `json` and `hmac` primitives: serialisation
round-trips on the signed body and both produce byte strings. -/
theorem c1_sign_verify_roundtrip
    (C : TokenCodec) (secret : List Char) (signTime verifyTime ttl : Int)
    (payload : Payload)
    (hsec : secret ≠ [])
    (_httl : 0 < ttl)
    (hdumps : ∀ b ∈ C.dumps (dictSet payload expKey (.jint (signTime + ttl))), b < 256)
    (hmac : ∀ b ∈ C.mac secret
        (base64urlEncode (C.dumps (dictSet payload expKey (.jint (signTime + ttl))))),
        b < 256)
    (hloads : C.loads (C.dumps (dictSet payload expKey (.jint (signTime + ttl)))) =
        some (dictSet payload expKey (.jint (signTime + ttl)))) :
    ∀ token, sign_value C secret signTime payload ttl = .ok token →
      ((verifyTime < signTime + ttl →
          verify_signed_value C secret verifyTime (some token) =
            some (dictSet payload expKey (.jint (signTime + ttl)))) ∧
        (signTime + ttl < verifyTime →
          verify_signed_value C secret verifyTime (some token) = none) ∧
        (∀ k v, k ≠ expKey → jlookup payload k = some v →
          jlookup (dictSet payload expKey (.jint (signTime + ttl))) k = some v)) := by
  intro token hsign
  set body := dictSet payload expKey (.jint (signTime + ttl)) with hbody
  set B := base64urlEncode (C.dumps body) with hB
  set S := base64urlEncode (C.mac secret B) with hS
  have htok : token = B ++ '.' :: S := by
    rw [sign_value, if_neg hsec] at hsign
    exact (Except.ok.injEq _ _ ▸ hsign).symm
  have hne : ¬(B ++ '.' :: S = [] ∨ '.' ∉ (B ++ '.' :: S) ∨ secret = []) := by
    push_neg
    refine ⟨by simp, by simp, hsec⟩
  have hsplit : splitOnceDot (B ++ '.' :: S) = (B, S) :=
    splitOnceDot_append B S (dot_not_mem_base64urlEncode _)
  have hdecS : base64urlDecode S = some (C.mac secret B) :=
    base64url_roundtrip _ hmac
  have hdecB : base64urlDecode B = some (C.dumps body) :=
    base64url_roundtrip _ hdumps
  have hexp : jlookup body expKey = some (.jint (signTime + ttl)) :=
    jlookup_dictSet_self payload expKey _
  have hverify : ∀ t : Int, verify_signed_value C secret t (some token) =
      (if signTime + ttl < t then none else some body) := by
    intro t
    rw [htok, verify_signed_value, if_neg hne]
    simp only [hsplit, hdecS, hdecB, hloads, hexp, pyInt, Option.getD_some, ne_eq,
      not_true_eq_false, if_false, ite_false]
  refine ⟨?_, ?_, ?_⟩
  · intro hbefore
    rw [hverify verifyTime, if_neg (by omega)]
  · intro hafter
    rw [hverify verifyTime, if_pos hafter]
  · intro k v hk hkv
    rw [hbody, jlookup_dictSet_ne payload expKey k _ hk]
    exact hkv

/-- C1 (counterexample): the claim as stated — the verified payload agrees
with the input on every key of the input — fails for a payload that itself
contains an `exp` key, because `_sign_value` overwrites `exp` with the
computed expiry: signing `[("exp", 0)]` with ttl 10 at time 0 and verifying
at time 5 returns a payload whose `exp` is 10, not 0. -/
theorem c1_counterexample :
    ¬ (∀ (C : TokenCodec) (secret : List Char) (signTime verifyTime ttl : Int)
        (payload : Payload),
        secret ≠ [] → 0 < ttl →
        C.loads (C.dumps (dictSet payload expKey (.jint (signTime + ttl)))) =
          some (dictSet payload expKey (.jint (signTime + ttl))) →
        verifyTime < signTime + ttl →
        ∀ token, sign_value C secret signTime payload ttl = .ok token →
          ∀ q, verify_signed_value C secret verifyTime (some token) = some q →
            ∀ k v, jlookup payload k = some v → jlookup q k = some v) := by
  intro h
  have := h (constCodec [(expKey, JVal.jint 10)]) ("k".toList) 0 5 10
    [(expKey, JVal.jint 0)] (by decide) (by decide) rfl (by decide)
    ['.'] rfl [(expKey, JVal.jint 10)] rfl expKey (JVal.jint 0) (by simp [jlookup])
  simp [jlookup] at this

/-- Witness for `c1_sign_verify_roundtrip`: evaluating the codec at a
concrete secret, payload, ttl and clock, before and after expiry. -/
theorem c1_witness :
    verify_signed_value (constCodec [(expKey, JVal.jint 10)]) ("k".toList) 5
        (some ['.']) = some [(expKey, JVal.jint 10)] ∧
      verify_signed_value (constCodec [(expKey, JVal.jint 10)]) ("k".toList) 11
        (some ['.']) = none := by
  have h5 := c1_sign_verify_roundtrip (constCodec [(expKey, JVal.jint 10)])
    ("k".toList) 0 5 10 [] (by decide) (by decide) (by simp [constCodec])
    (by simp [constCodec]) rfl ['.'] rfl
  have h11 := c1_sign_verify_roundtrip (constCodec [(expKey, JVal.jint 10)])
    ("k".toList) 0 11 10 [] (by decide) (by decide) (by simp [constCodec])
    (by simp [constCodec]) rfl ['.'] rfl
  constructor
  · have := h5.1 (by decide)
    simpa [dictSet] using this
  · exact h11.2.1 (by decide)

/-- C7: with the signing secret absent, `_sign_value` raises for every
payload and ttl, and `_verify_signed_value` returns invalid for every input
value, including well-formed tokens. -/
theorem c7_missing_secret (C : TokenCodec) (now : Int) (payload : Payload)
    (ttl : Int) (value : Option (List Char)) :
    sign_value C [] now payload ttl = .error secretRequiredMsg ∧
      verify_signed_value C [] now value = none := by
  constructor
  · simp [sign_value]
  · match value with
    | none => rfl
    | some v => simp [verify_signed_value]

/-- C9: whenever `_verify_signed_value` accepts a token (returns a payload),
that payload carries an `exp` field whose integer value is at least the
current time; in particular a correctly signed token without an `exp` field
is treated as expired (`int(payload.get("exp", 0))` defaults to 0) and
rejected at any positive clock value. -/
theorem c9_accepted_token_has_future_exp (C : TokenCodec) (secret : List Char)
    (now : Int) (value : Option (List Char)) (payload : Payload)
    (hnow : 1 ≤ now)
    (hacc : verify_signed_value C secret now value = some payload) :
    ∃ e n, jlookup payload expKey = some e ∧ pyInt e = some n ∧ now ≤ n := by
  match value with
  | none => exact absurd hacc (by simp [verify_signed_value])
  | some v =>
    rw [verify_signed_value] at hacc
    split at hacc
    · exact absurd hacc (by simp)
    split at hacc
    · exact absurd hacc (by simp)
    split at hacc
    · exact absurd hacc (by simp)
    split at hacc
    · exact absurd hacc (by simp)
    split at hacc
    · exact absurd hacc (by simp)
    split at hacc
    · exact absurd hacc (by simp)
    split at hacc
    · exact absurd hacc (by simp)
    rename_i x1 payload' heqLoads x2 e heqInt hnotlt
    obtain rfl : payload' = payload := by simpa using hacc
    rcases hjl : jlookup payload' expKey with _ | ev
    · rw [hjl] at heqInt
      simp only [Option.getD_none, pyInt, Option.some.injEq] at heqInt
      omega
    · rw [hjl] at heqInt
      simp only [Option.getD_some] at heqInt
      exact ⟨ev, e, rfl, heqInt, by omega⟩

/-- Witness for `c9_accepted_token_has_future_exp` at a concrete accepted
token. -/
theorem c9_witness :
    ∃ e n, jlookup [(expKey, JVal.jint 10)] expKey = some e ∧
      pyInt e = some n ∧ (1 : Int) ≤ n :=
  c9_accepted_token_has_future_exp (constCodec [(expKey, JVal.jint 10)])
    ("k".toList) 1 (some ['.']) [(expKey, JVal.jint 10)] (by decide) rfl


/-! ## C6 — post-login redirect -/

/-- C6 (counterexample): the claim says every input that is not a safe
relative path yields "/", but `urlparse` raises `ValueError` on the
protocol-relative input "//[" (unbalanced bracket in the authority), so
`_build_post_login_redirect` propagates an exception instead of returning
anything at all. -/
theorem c6_counterexample :
    ¬ (∀ (bracketOk netlocOk : List Char → Bool) (next_url : List Char),
        build_post_login_redirect bracketOk netlocOk next_url = some next_url ∨
          build_post_login_redirect bracketOk netlocOk next_url = some rootPath) := by
  intro h
  rcases h (fun _ => true) (fun _ => true) ['/', '/', '['] with hc | hc <;>
    exact absurd hc (by decide)

/-- C6 (amended): whenever `_build_post_login_redirect` returns (it can
instead propagate a `ValueError` from `urlparse` on a malformed authority),
the result is "/" or the stripped input; the returned redirect target always
starts with "/" and parses with empty scheme and empty network location
(same-origin relative); and the input itself is returned only when it is
already stripped, non-empty, starts with "/" and parses with empty scheme
and netloc. -/
theorem c6_redirect_same_origin (bracketOk netlocOk : List Char → Bool)
    (next_url r : List Char)
    (h : build_post_login_redirect bracketOk netlocOk next_url = some r) :
    (r.take 1 = ['/'] ∧ urlSchemeNetloc bracketOk netlocOk r = some ([], [])) ∧
      (r = rootPath ∨ r = pyStrip next_url) ∧
      (r = next_url → r ≠ rootPath →
        (pyStrip next_url = next_url ∧ next_url ≠ [] ∧ next_url.take 1 = ['/'] ∧
          urlSchemeNetloc bracketOk netlocOk next_url = some ([], []))) := by
  rw [build_post_login_redirect] at h
  split at h
  · obtain rfl : rootPath = r := by simpa using h
    exact ⟨⟨rfl, rfl⟩, Or.inl rfl, fun _ h2 => absurd rfl h2⟩
  split at h
  · exact absurd h (by simp)
  split at h
  · obtain rfl : rootPath = r := by simpa using h
    exact ⟨⟨rfl, rfl⟩, Or.inl rfl, fun _ h2 => absurd rfl h2⟩
  split at h
  · obtain rfl : rootPath = r := by simpa using h
    exact ⟨⟨rfl, rfl⟩, Or.inl rfl, fun _ h2 => absurd rfl h2⟩
  · rename_i hstrip x sn heq hcond1 hcond2
    obtain rfl : pyStrip next_url = r := by simpa using h
    push_neg at hcond1
    have hsn : sn = ([], []) := by
      obtain ⟨ha, hb⟩ := hcond1
      obtain ⟨x, y⟩ := sn
      simp only [not_not] at ha hb
      simp [ha, hb]
    rw [not_not] at hcond2
    refine ⟨⟨hcond2, hsn ▸ heq⟩, Or.inr rfl, ?_⟩
    intro h1 _
    exact ⟨h1, fun hnil => hstrip (h1.trans hnil), h1 ▸ hcond2, h1 ▸ hsn ▸ heq⟩

/-- Witness for `c6_redirect_same_origin` on the concrete input "/dash". -/
theorem c6_witness :
    ("/dash".toList).take 1 = ['/'] ∧
      urlSchemeNetloc (fun _ => true) (fun _ => true) ("/dash".toList) =
        some ([], []) :=
  (c6_redirect_same_origin (fun _ => true) (fun _ => true) ("/dash".toList)
    ("/dash".toList) (by decide)).1

/-! ## C4 — tool_result status -/

theorem jvalIsStr_getD_iff (o : Option JVal) (t : List Char) :
    jvalIsStr (o.getD .jnull) t = true ↔ o = some (.jstr t) := by
  cases o with
  | none => simp [jvalIsStr]
  | some v => cases v <;> simp [jvalIsStr]

theorem is_error_response_iff (rd : JVal) :
    _is_error_response rd = true ↔
      ∃ fields, rd = .jobj fields ∧
        (jlookup fields statusKey = some (.jstr errorKey) ∨
          ∃ v, jlookup fields errorKey = some v) := by
  constructor
  · intro h
    cases rd with
    | jobj fields =>
      refine ⟨fields, rfl, ?_⟩
      have hor : jvalIsStr ((jlookup fields statusKey).getD .jnull) errorKey = true ∨
          (jlookup fields errorKey).isSome = true := by
        simpa [_is_error_response, Bool.or_eq_true] using h
      rcases hor with hs | he
      · exact Or.inl ((jvalIsStr_getD_iff _ _).mp hs)
      · exact Or.inr (Option.isSome_iff_exists.mp he)
    | jnull => simp [_is_error_response] at h
    | jbool b => simp [_is_error_response] at h
    | jint n => simp [_is_error_response] at h
    | jstr s => simp [_is_error_response] at h
    | jarr l => simp [_is_error_response] at h
  · rintro ⟨fields, rfl, hmark⟩
    rcases hmark with hs | ⟨v, hv⟩
    · simp [_is_error_response, hs, jvalIsStr]
    · simp [_is_error_response, hv]

/-- C4 (amended): a `tool_result` event's status is `"error"` exactly when
the result payload is a dict whose top level carries the marker — a `status`
field equal to `"error"` or an `error` key; the nested
`error`/`result`/`response` containers play no part in the status (they are
searched only for the human-readable detail).  In every other case the
status is `"success"`. -/
theorem c4_tool_result_status (fr : Payload) :
    ((process_function_response fr).status = errorKey ↔
      (∃ fields, (jlookup fr responseKey).getD (.jobj []) = .jobj fields ∧
        (jlookup fields statusKey = some (.jstr errorKey) ∨
          ∃ v, jlookup fields errorKey = some v))) ∧
      ((process_function_response fr).status = errorKey ∨
        (process_function_response fr).status = successKeyword) := by
  have hne : successKeyword ≠ errorKey := by decide
  constructor
  · rw [← is_error_response_iff]
    simp only [process_function_response]
    rcases hb : _is_error_response ((jlookup fr responseKey).getD (.jobj [])) with _ | _
    · simp [hb, hne]
    · simp [hb]
  · simp only [process_function_response]
    rcases hb : _is_error_response ((jlookup fr responseKey).getD (.jobj [])) with _ | _
    · simp [hb]
    · simp [hb]

/-- C4 (counterexample): the claimed status rule — error iff a marker is
found at the top level or inside the nested `error`/`result`/`response`
containers — fails on a `function_response` whose result payload nests the
marker inside its `result` container (a `status` field equal to `"error"`
there): the spec-worded predicate holds of that payload,
yet `_is_error_response` looks only at the top level and the emitted status
is `"success"`. -/
theorem c4_counterexample :
    ¬ (∀ fr : Payload,
        (process_function_response fr).status = errorKey ↔
          hasErrorMarkerSpec ((jlookup fr responseKey).getD (.jobj [])) = true) := by
  intro h
  have := (h c4CounterPart).2 (by decide)
  exact absurd this (by decide)

/-! ## C2 — state mismatch in the OIDC callback -/

/-- C2: when the `state` query parameter is non-empty but differs from the
`state` stored in the verified signed state cookie, `auth_callback` returns
an error body (one of the three error payloads that precede the token
exchange) and does not mint a session cookie. -/
theorem c2_state_mismatch_rejected (Cd : TokenCodec) (cfg : OidcConfig) (now : Int)
    (bracketOk netlocOk : List Char → Bool)
    (exchangeF : List Char → Option Payload)
    (validateF : List Char → List Char → Option Payload)
    (stateCookie : Option (List Char)) (code state : List Char) (sc : Payload)
    (hver : verify_signed_value Cd cfg.sessionSecret now stateCookie = some sc)
    (hstate : state ≠ [])
    (hmismatch : jvalIsStr ((jlookup sc stateKey).getD .jnull) state = false) :
    (auth_callback Cd cfg now bracketOk netlocOk exchangeF validateF stateCookie
          code state = .errorBody notConfiguredMsg ∨
        auth_callback Cd cfg now bracketOk netlocOk exchangeF validateF stateCookie
          code state = .errorBody missingParamsMsg ∨
        auth_callback Cd cfg now bracketOk netlocOk exchangeF validateF stateCookie
          code state = .errorBody stateMismatchMsg) ∧
      setsSessionCookie (auth_callback Cd cfg now bracketOk netlocOk exchangeF
        validateF stateCookie code state) = false := by
  have hmain : auth_callback Cd cfg now bracketOk netlocOk exchangeF validateF
      stateCookie code state = .errorBody notConfiguredMsg ∨
      auth_callback Cd cfg now bracketOk netlocOk exchangeF validateF stateCookie
        code state = .errorBody missingParamsMsg ∨
      auth_callback Cd cfg now bracketOk netlocOk exchangeF validateF stateCookie
        code state = .errorBody stateMismatchMsg := by
    rw [auth_callback]
    by_cases hready : _is_oidc_ready cfg = true
    · simp only [hready, not_true_eq_false, if_false, hver]
      by_cases hcode : code = []
      · right; left
        rw [if_pos (Or.inl hcode)]
      · rw [if_neg (by push_neg; exact ⟨hcode, hstate⟩)]
        right; right
        rw [if_pos (by simp [hmismatch])]
    · left
      rw [if_pos (by simp [hready])]
  refine ⟨hmain, ?_⟩
  rcases hmain with hm | hm | hm <;> rw [hm] <;> rfl

/-- Witness for `c2_state_mismatch_rejected` at a concrete mismatching
callback. -/
theorem c2_witness :
    (auth_callback (constCodec c2WitnessCookie) c2WitnessCfg 0 (fun _ => true)
          (fun _ => true) (fun _ => none) (fun _ _ => none) (some ['.'])
          ("c".toList) ("bbb".toList) = .errorBody notConfiguredMsg ∨
        auth_callback (constCodec c2WitnessCookie) c2WitnessCfg 0 (fun _ => true)
          (fun _ => true) (fun _ => none) (fun _ _ => none) (some ['.'])
          ("c".toList) ("bbb".toList) = .errorBody missingParamsMsg ∨
        auth_callback (constCodec c2WitnessCookie) c2WitnessCfg 0 (fun _ => true)
          (fun _ => true) (fun _ => none) (fun _ _ => none) (some ['.'])
          ("c".toList) ("bbb".toList) = .errorBody stateMismatchMsg) ∧
      setsSessionCookie (auth_callback (constCodec c2WitnessCookie) c2WitnessCfg 0
        (fun _ => true) (fun _ => true) (fun _ => none) (fun _ _ => none)
        (some ['.']) ("c".toList) ("bbb".toList)) = false :=
  c2_state_mismatch_rejected (constCodec c2WitnessCookie) c2WitnessCfg 0
    (fun _ => true) (fun _ => true) (fun _ => none) (fun _ _ => none)
    (some ['.']) ("c".toList) ("bbb".toList) c2WitnessCookie rfl
    (by decide) (by decide)

/-! ## C5 — lazy failure on missing agent identity -/

/-- C5 (counterexample): the claim — with the agent identity configuration
missing, no WebSocket connection is ever accepted — is false: with
`AGENT_RESOURCE_NAME` unset and auth disabled, the upgrade IS accepted
(`websocket.accept()` runs before `_init_vertex()` raises). -/
theorem c5_counterexample :
    ¬ (∀ (cfg : GatewayConfig) (oidcEnabled : Bool) (user : Option Payload),
        cfg.agentResourceName = [] →
        wsAccepted (websocket_start cfg oidcEnabled user) = false) := by
  intro h
  exact absurd (h ⟨"p".toList, []⟩ false none rfl) (by decide)

/-- C5 (amended): when the agent identity configuration is missing, no
connection ever reaches ready service, but the failure is lazy and
per-connection: every connection that passes the auth check is accepted
first and only then fails in `_init_vertex` — nothing fails at startup. -/
theorem c5_config_error_is_lazy (cfg : GatewayConfig) (oidcEnabled : Bool)
    (sessionUser : Option Payload)
    (hmissing : cfg.gcpProjectId = [] ∨ cfg.agentResourceName = []) :
    websocket_start cfg oidcEnabled sessionUser ≠ .acceptedReady ∧
      (wsAccepted (websocket_start cfg oidcEnabled sessionUser) = true →
        websocket_start cfg oidcEnabled sessionUser = .acceptedConfigError) := by
  unfold websocket_start
  split
  · exact ⟨by simp, by simp [wsAccepted]⟩
  · exact ⟨by simp, fun _ => rfl⟩

/-- Witness for `c5_config_error_is_lazy` at a concrete configuration. -/
theorem c5_witness :
    websocket_start ⟨"p".toList, []⟩ false none ≠ .acceptedReady :=
  (c5_config_error_is_lazy ⟨"p".toList, []⟩ false none (Or.inr rfl)).1

/-! ## C10 — default sample rate -/

/-- C10: an `audio_chunk` message that omits `sample_rate`, sent while a
live session is active, whose `audio` field is a non-empty string of
strictly valid base64, is accepted (no error frame) and enqueued with the
default sample rate 16000. -/
theorem c10_default_sample_rate (payload : Payload) (s : List Char) (bs : List Nat)
    (haudio : jlookup payload audioKey = some (.jstr s))
    (hnorate : jlookup payload sampleRateKey = none)
    (hne : s ≠ [])
    (hdec : decode_audio_base64 s = some bs) :
    handle_audio_chunk true payload = .enqueued bs 16000 := by
  rw [handle_audio_chunk]
  simp only [haudio, hnorate, hdec, Option.getD_none, pyInt, not_true_eq_false,
    if_false, hne]
  norm_num

/-- Witness for `c10_default_sample_rate` on a concrete one-byte chunk. -/
theorem c10_witness :
    handle_audio_chunk true [(audioKey, JVal.jstr ("QQ==".toList))] =
      .enqueued [65] 16000 :=
  c10_default_sample_rate _ ("QQ==".toList) [65] rfl rfl (by decide) rfl

/-! ## C8 — the audio channel is unbounded -/

theorem audioQueue_maxsize_eq (q : AudioQueue) (h : AudioQueueReachable q) :
    q.maxsize = 0 := by
  induction h with
  | refl => rfl
  | tail _ step ih =>
    cases step with
    | put item hput => exact ih
    | get item rest hitems => exact ih

/-- C8 (counterexample): the inbound audio channel is not bounded by any
finite capacity — for every `N` some reachable queue state holds more than
`N` chunks (`asyncio.Queue()` has `maxsize = 0`, treated as infinite). -/
theorem c8_counterexample :
    ¬ ∃ N, ∀ q, AudioQueueReachable q → q.items.length ≤ N := by
  rintro ⟨N, hN⟩
  have hreach : ∀ n : Nat,
      AudioQueueReachable ⟨0, List.replicate n ((none : Option (List Nat)), 0)⟩ := by
    intro n
    induction n with
    | zero => exact Relation.ReflTransGen.refl
    | succ m ih =>
      refine Relation.ReflTransGen.tail ih ?_
      have step := AudioQueueStep.put
        ⟨0, List.replicate m ((none : Option (List Nat)), 0)⟩
        ((none : Option (List Nat)), 0) (by simp [queuePutReady])
      simpa [List.replicate_succ'] using step
  have hlen := hN _ (hreach (N + 1))
  simp [List.length_replicate] at hlen

/-- C8 (amended): the channel is unbounded — in every reachable state of
the gateway's audio queue an enqueue completes immediately. -/
theorem c8_put_always_ready (q : AudioQueue) (h : AudioQueueReachable q) :
    queuePutReady q = true := by
  simp [queuePutReady, audioQueue_maxsize_eq q h]

/-- Witness for `c8_put_always_ready` at the freshly created queue. -/
theorem c8_witness : queuePutReady gatewayAudioQueue = true :=
  c8_put_always_ready gatewayAudioQueue Relation.ReflTransGen.refl

/-! ## C3 — at most one response-trigger task -/

theorem triggerInv_initial : triggerInv initialLiveState :=
  ⟨fun _ => rfl, fun t ht => by simp [initialLiveState] at ht⟩

theorem triggerInv_step (s s' : LiveSessionState) (hs : triggerInv s)
    (hstep : LiveStep s s') : triggerInv s' := by
  obtain ⟨h1, h2⟩ := hs
  cases hstep with
  | tick d hd => exact ⟨h1, h2⟩
  | liveStart h => exact ⟨h1, h2⟩
  | liveStartNoop h => exact ⟨h1, h2⟩
  | streamEnd => exact ⟨h1, h2⟩
  | fragmentSpawn hrun hnone hquiet =>
    refine ⟨fun hcontra => by simp at hcontra, fun t ht => ?_⟩
    have heq : t = s.nextTaskId := by simpa using ht.symm
    subst heq
    rw [h1 hnone]
    exact Or.inr rfl
  | fragmentNoSpawn hrun hguard => exact ⟨h1, h2⟩
  | speechPauseSpawn hnone hlive =>
    refine ⟨fun hcontra => by simp at hcontra, fun t ht => ?_⟩
    have heq : t = s.nextTaskId := by simpa using ht.symm
    subst heq
    rw [h1 hnone]
    exact Or.inr rfl
  | speechPauseNoop hguard => exact ⟨h1, h2⟩
  | triggerAdvance tid hmem => exact ⟨h1, h2⟩
  | triggerExit tid completed hmem =>
    refine ⟨fun _ => ?_, fun t ht => absurd ht (by simp)⟩
    cases hrt : s.responseTask with
    | none =>
      rw [h1 hrt] at hmem
      simp at hmem
    | some t0 =>
      rcases h2 t0 hrt with he | he
      · rw [he] at hmem
        simp at hmem
      · rw [he] at hmem ⊢
        obtain rfl : tid = t0 := by simpa using hmem
        simp
  | stop => exact ⟨fun _ => rfl, fun t ht => absurd ht (by simp)⟩

theorem triggerInv_reachable (s : LiveSessionState) (h : LiveReachable s) :
    triggerInv s := by
  induction h with
  | refl => exact triggerInv_initial
  | tail _ hstep ih => exact triggerInv_step _ _ ih hstep

/-- C3: in every reachable state of a live voice session at most one
response-trigger task is active, and the `response_task` handle points at
the active one — for every interleaving of transcript fragments, rapid
`speech_pause` messages, `live_start`/`live_stop`, cancellations and task
exits. -/
theorem c3_at_most_one_trigger (s : LiveSessionState) (h : LiveReachable s) :
    s.activeTriggers.length ≤ 1 ∧
      ∀ t ∈ s.activeTriggers, s.responseTask = some t := by
  obtain ⟨h1, h2⟩ := triggerInv_reachable s h
  cases hrt : s.responseTask with
  | none =>
    rw [h1 hrt]
    exact ⟨by simp, by simp⟩
  | some t0 =>
    rcases h2 t0 hrt with he | he <;> rw [he]
    · exact ⟨by simp, by simp⟩
    · refine ⟨by simp, fun t ht => ?_⟩
      obtain rfl : t = t0 := by simpa using ht
      rfl

/-- Witness for `c3_at_most_one_trigger` at the initial state. -/
theorem c3_witness : initialLiveState.activeTriggers.length ≤ 1 :=
  (c3_at_most_one_trigger initialLiveState Relation.ReflTransGen.refl).1

end LiveGateway
